import Mathlib

/-!
Shallow embedding of the spaced-repetition review core of the `engur`
vocabulary-flashcard application, together with proofs of its specified
properties.

The embedding is translated from:
  * `src/pages/Revision.tsx` — the review session page: `fetchNextCard`
    (due-card selection with an `is_learned`-filter fallback, batch fetch of
    up to 10 rows ordered by `next_review_at`, client-side seen filter) and
    `handleRate` (Policy A two-outcome rating handler over the session's
    `seenCardIdsRef` set and `againQueueRef` queue);
  * `src/components/SwipeableCard.tsx` — `handleReviewLater`, the
    "move to end" operation that rewrites only `created_at`;
  * the SQL migrations — the `vocabulary` table row shape
    (`next_review_at`, `interval_days`, `ease_factor`, nullable `is_learned`,
    `created_at`).

Timestamps are modelled as integers (milliseconds), the float columns
`interval_days` and `ease_factor` as rationals, and the nullable
`is_learned` column as `Option Bool`.  The Supabase store is modelled as a
list of rows together with two environment flags: whether the
`is_learned` column exists in the schema (queries filtering on it fail
when it does not) and whether the store is reachable at all (all queries
fail transiently when it is not).
-/

/-- A row of the `vocabulary` table, restricted to the fields the review
core reads or writes. -/
structure Card where
  id : Nat
  next_review_at : Int
  interval_days : ℚ
  ease_factor : ℚ
  is_learned : Option Bool
  created_at : Int
deriving DecidableEq

/-- The persistent store as seen by the review page: the `vocabulary` rows
plus the two environment facts the error paths depend on. -/
structure VocabStore where
  rows : List Card
  hasIsLearnedColumn : Bool
  available : Bool
deriving DecidableEq

/-- Errors a Supabase query can report in this model: the store is
transiently unreachable, or the query referenced a column missing from the
schema. -/
inductive QueryError
  | storeUnavailable
  | missingColumn
deriving DecidableEq

/-- The `.lte("next_review_at", now)` clause: the card is due. -/
def isDue (now : Int) (c : Card) : Bool :=
  decide (c.next_review_at ≤ now)

/-- The `.or("is_learned.is.null,is_learned.eq.false")` clause: a
missing/unset `is_learned` counts as not learned. -/
def notLearned (c : Card) : Bool :=
  !(c.is_learned.getD false)

/-- The chain of `.neq("id", cardId)` clauses built from the session's seen
set: the card's id is not among the seen ids. -/
def unseen (seen : List Nat) (c : Card) : Bool :=
  decide (c.id ∉ seen)

/-- The ordering used by `.order("next_review_at", { ascending: true })`. -/
def dueOrder (a b : Card) : Prop :=
  a.next_review_at ≤ b.next_review_at

instance : DecidableRel dueOrder := fun a b =>
  inferInstanceAs (Decidable (a.next_review_at ≤ b.next_review_at))

instance : IsTotal Card dueOrder :=
  ⟨fun a b => Int.le_total a.next_review_at b.next_review_at⟩

instance : IsTrans Card dueOrder :=
  ⟨fun _ _ _ hab hbc => le_trans hab hbc⟩

/-- Sort rows ascending by `next_review_at`. -/
def sortByDue (l : List Card) : List Card :=
  l.insertionSort dueOrder

/-- Rows matching the query without the `is_learned` filter: due and not
excluded by the seen-id `neq` clauses. -/
def dueUnseenRows (st : VocabStore) (seen : List Nat) (now : Int) : List Card :=
  st.rows.filter (fun c => isDue now c && unseen seen c)

/-- Rows matching the query with the `is_learned` filter. -/
def dueUnseenNotLearnedRows (st : VocabStore) (seen : List Nat) (now : Int) : List Card :=
  st.rows.filter (fun c => isDue now c && unseen seen c && notLearned c)

/-- The count query (`select("*", { count: "exact", head: true })`), with or
without the `is_learned` filter.  It errors when the store is unreachable,
and the filtered form errors when the `is_learned` column is absent. -/
def runCountQuery (st : VocabStore) (seen : List Nat) (now : Int)
    (withFilter : Bool) : Except QueryError Nat :=
  if st.available = false then .error .storeUnavailable
  else if withFilter && !st.hasIsLearnedColumn then .error .missingColumn
  else if withFilter then .ok (dueUnseenNotLearnedRows st seen now).length
  else .ok (dueUnseenRows st seen now).length

/-- Lines 55–71 of `Revision.tsx`: try the filtered count, fall back to the
unfiltered count on error, and leave the count at 0 when both fail. -/
def countWithFallback (st : VocabStore) (seen : List Nat) (now : Int) : Nat :=
  match runCountQuery st seen now true with
  | .ok n => n
  | .error _ =>
    match runCountQuery st seen now false with
    | .ok n => n
    | .error _ => 0

/-- The data query: due rows not excluded by the seen `neq` clauses
(optionally also filtered on `is_learned`), ordered ascending by
`next_review_at`, limited to 10 rows. -/
def runDataQuery (st : VocabStore) (seen : List Nat) (now : Int)
    (withFilter : Bool) : Except QueryError (List Card) :=
  if st.available = false then .error .storeUnavailable
  else if withFilter && !st.hasIsLearnedColumn then .error .missingColumn
  else if withFilter then
    .ok ((sortByDue (dueUnseenNotLearnedRows st seen now)).take 10)
  else .ok ((sortByDue (dueUnseenRows st seen now)).take 10)

/-- Lines 92–118 of `Revision.tsx`: run the filtered data query; on error
rebuild and run the same query without the `is_learned` filter. -/
def dataWithFallback (st : VocabStore) (seen : List Nat) (now : Int) :
    Except QueryError (List Card) :=
  match runDataQuery st seen now true with
  | .ok d => .ok d
  | .error _ => runDataQuery st seen now false

/-- The in-memory state of the `Revision` page: the presented card
(`currentCard`), the displayed remaining count (`cardsRemaining`), the
`againQueueRef` queue and the `seenCardIdsRef` set. -/
structure SessionState where
  currentCard : Option Card
  cardsRemaining : Nat
  againQueue : List Card
  seen : List Nat
deriving DecidableEq

/-- The page's initial state: no card, zero count, empty queue, empty seen
set. -/
def initState : SessionState :=
  ⟨none, 0, [], []⟩

/-- Translates `seenCardIdsRef.current.add(id)`: set-insert an id into the
seen set. -/
def insertSeen (x : Nat) (seen : List Nat) : List Nat :=
  if x ∈ seen then seen else x :: seen

/-- The observable outcome of one handler invocation: the new page state,
the store (returned to make the absence of writes explicit), the error
surfaced by a failed fetch, and the id the selection returned, if any. -/
structure StepResult where
  next : SessionState
  store : VocabStore
  err : Option QueryError
  emitted : Option Nat
deriving DecidableEq

/-- Translates `fetchNextCard` from `Revision.tsx`: recompute the remaining count
(with its fallback; the count falls back to 0 when even the unfiltered
query fails), then fetch a batch of up to 10 due unseen rows (with the
`is_learned`-filter fallback), filter out seen cards client-side, and
present the first survivor; a data-query error is caught, surfaced, and
leaves the presented card unchanged.  The seen set is never modified
here. -/
def fetchNextCardStep (st : VocabStore) (s : SessionState) (now : Int) :
    StepResult :=
  let count := countWithFallback st s.seen now
  let s1 : SessionState :=
    { s with cardsRemaining := count + s.againQueue.length }
  match dataWithFallback st s.seen now with
  | .ok data =>
    let card? := (data.filter (fun c => unseen s.seen c)).head?
    ⟨{ s1 with currentCard := card? }, st, none, card?.map (·.id)⟩
  | .error e => ⟨s1, st, some e, none⟩

/-- Policy A's two outcomes as wired in `Revision.tsx`: `again`
("Next") and `good` ("Done"). -/
inductive Rating
  | again
  | good
deriving DecidableEq

/-- Translates `handleRate` from `Revision.tsx`: a no-op when no card is presented;
otherwise the presented card's id is added to the seen set first (always,
for either rating), the `good` ("Done") branch additionally removes the
card from `againQueueRef`, and both branches then fetch the next card.
Neither branch issues any store write. -/
def handleRate (st : VocabStore) (s : SessionState) (now : Int) (r : Rating) :
    StepResult :=
  match s.currentCard with
  | none => ⟨s, st, none, none⟩
  | some card =>
    let seen' := insertSeen card.id s.seen
    match r with
    | .again => fetchNextCardStep st { s with seen := seen' } now
    | .good =>
      let aq' := s.againQueue.filter (fun c => c.id != card.id)
      fetchNextCardStep st
        { s with seen := seen', againQueue := aq' } now

/-- The ways the page's code reaches a fetch or a rating: the user rates
the presented card, or presses the empty-state "Check again" button (the
page's mount effect is the same fetch from the initial state; the button
is only rendered when no card is presented). -/
inductive UserAction
  | rate (r : Rating)
  | checkAgain
deriving DecidableEq

/-- One user-driven step of the page. -/
def stepUI (st : VocabStore) (now : Int) (s : SessionState) :
    UserAction → StepResult
  | .rate r => handleRate st s now r
  | .checkAgain =>
    if s.currentCard = none then fetchNextCardStep st s now
    else ⟨s, st, none, none⟩

/-- The ids returned by the next-card selection along a run of user
actions. -/
def sessionTrace (st : VocabStore) (now : Int) :
    List UserAction → SessionState → List Nat
  | [], _ => []
  | a :: acts, s =>
    match (stepUI st now s a).emitted with
    | some x => x :: sessionTrace st now acts (stepUI st now s a).next
    | none => sessionTrace st now acts (stepUI st now s a).next

/-- The page state after a run of user actions. -/
def runActs (st : VocabStore) (now : Int) :
    List UserAction → SessionState → SessionState
  | [], s => s
  | a :: acts, s => runActs st now acts (stepUI st now s a).next

/-- The number of due, not-learned, not-yet-seen rows — what the claims
compare the displayed remaining count against. -/
def eligibleCount (st : VocabStore) (seen : List Nat) (now : Int) : Nat :=
  (dueUnseenNotLearnedRows st seen now).length

/-- Translates `handleReviewLater` from `SwipeableCard.tsx` (the "move to end"
swipe action on the deck list): update the matching row's `created_at` to
now; no other column appears in the update payload. -/
def handleReviewLater (rows : List Card) (targetId : Nat) (now : Int) :
    List Card :=
  rows.map (fun w => if w.id = targetId then { w with created_at := now } else w)

/-- The scheduling-relevant projection of a row: id and the three
scheduling columns. -/
def schedProj (w : Card) : Nat × Int × ℚ × ℚ :=
  (w.id, w.next_review_at, w.interval_days, w.ease_factor)

/-- Modelled from the spec: the `ScheduleState` operated on by the Policy B
scheduler (§4.1), whose implementation is not among the sources under
`src/` — only Policy A's flow is.  `intervalDays` and `easeFactor` are the
float fields, `nextReviewAt` an absolute timestamp in milliseconds. -/
structure SchedState where
  intervalDays : ℚ
  easeFactor : ℚ
  nextReviewAt : Int
deriving DecidableEq

/-- Policy B's three outcomes. -/
inductive RatingB
  | again
  | good
  | easy
deriving DecidableEq

/-- Milliseconds per day, used to add whole days to a timestamp. -/
def dayMs : Int := 86400000

/-- Modelled from the spec: the Policy B three-outcome SM-2-derived
transition (§4.1), absent from the code under `src/`.  `again` resets the
interval to 1.0 and decays the ease by 0.2 (floored at 1.3); `good`
multiplies the interval by the ease, leaving the ease unchanged; `easy`
multiplies the interval by the ease and by 1.5 and raises the ease by 0.1
(capped at 2.8); in all cases the next review is `now` plus the new
interval rounded up to whole days. -/
def scheduleB (r : RatingB) (s : SchedState) (now : Int) : SchedState :=
  match r with
  | .again =>
    { intervalDays := 1
      easeFactor := max (13/10 : ℚ) (s.easeFactor - 2/10)
      nextReviewAt := now + dayMs * ⌈(1 : ℚ)⌉ }
  | .good =>
    { intervalDays := s.intervalDays * s.easeFactor
      easeFactor := s.easeFactor
      nextReviewAt := now + dayMs * ⌈s.intervalDays * s.easeFactor⌉ }
  | .easy =>
    { intervalDays := s.intervalDays * s.easeFactor * (3/2)
      easeFactor := min (14/5 : ℚ) (s.easeFactor + 1/10)
      nextReviewAt := now + dayMs * ⌈s.intervalDays * s.easeFactor * (3/2)⌉ }

/-- Concrete rows used by the witnesses: due and not learned. -/
def demoCard1 : Card := ⟨1, 5, 1, 5/2, some false, 0⟩

/-- Due, `is_learned` unset (null). -/
def demoCard2 : Card := ⟨2, 3, 1, 5/2, none, 0⟩

/-- Due but learned. -/
def demoCard3 : Card := ⟨3, 2, 2, 2, some true, 0⟩

/-- Not yet due at the witness time. -/
def demoCard4 : Card := ⟨4, 50, 1, 5/2, none, 0⟩

/-- A store with the `is_learned` column present and the store reachable:
two due not-learned cards (ids 2 then 1 by due order), one due learned
card (id 3), one not-yet-due card (id 4). -/
def demoStore : VocabStore :=
  ⟨[demoCard1, demoCard2, demoCard3, demoCard4], true, true⟩

/-- A page state presenting `demoCard2` with an empty seen set. -/
def demoPresenting : SessionState :=
  ⟨some demoCard2, 2, [], []⟩

/-- The same rows in a store whose schema lacks the `is_learned` column. -/
def demoStoreNoCol : VocabStore :=
  ⟨demoStore.rows, false, true⟩

/-- The same rows in a transiently unreachable store. -/
def demoStoreDown : VocabStore :=
  ⟨demoStore.rows, true, false⟩

/-- The reference time used by the concrete witnesses. -/
def demoNow : Int := 10

example : scheduleB .again ⟨4, 5/2, 0⟩ 0 =
    ⟨1, 23/10, dayMs * 1⟩ := by
  simp [scheduleB]; norm_num

example : (scheduleB .easy ⟨2, 11/4, 0⟩ 0).nextReviewAt = dayMs * 9 := by
  simp [scheduleB]; norm_num
  left
  rw [Int.ceil_eq_iff]
  constructor <;> norm_num

theorem head?_take_ten (l : List Card) : (l.take 10).head? = l.head? := by
  cases l <;> rfl

theorem mem_sortByDue {a : Card} {l : List Card} :
    a ∈ sortByDue l ↔ a ∈ l :=
  (List.perm_insertionSort dueOrder l).mem_iff

theorem sortByDue_eq_nil {l : List Card} : sortByDue l = [] ↔ l = [] := by
  constructor
  · intro h
    have := (List.perm_insertionSort dueOrder l).length_eq
    rw [show sortByDue l = l.insertionSort dueOrder from rfl] at h
    rw [h] at this
    exact List.eq_nil_of_length_eq_zero this.symm
  · intro h; rw [h]; rfl

theorem sortByDue_head_min {l : List Card} {c : Card} {t : List Card}
    (h : sortByDue l = c :: t) :
    ∀ d ∈ l, c.next_review_at ≤ d.next_review_at := by
  intro d hd
  have hs : List.Sorted dueOrder (c :: t) := by
    rw [← h]; exact List.sorted_insertionSort dueOrder l
  have hmem : d ∈ c :: t := by
    rw [← h]; exact mem_sortByDue.mpr hd
  rcases List.mem_cons.mp hmem with rfl | hmem
  · exact le_refl _
  · exact List.rel_of_sorted_cons hs d hmem

theorem mem_dueUnseenNotLearnedRows {st : VocabStore} {seen : List Nat}
    {now : Int} {c : Card} :
    c ∈ dueUnseenNotLearnedRows st seen now ↔
      c ∈ st.rows ∧ c.next_review_at ≤ now ∧
        c.is_learned.getD false = false ∧ c.id ∉ seen := by
  simp only [dueUnseenNotLearnedRows, List.mem_filter, Bool.and_eq_true,
    isDue, unseen, notLearned, decide_eq_true_eq, Bool.not_eq_true']
  tauto

theorem mem_dueUnseenRows {st : VocabStore} {seen : List Nat}
    {now : Int} {c : Card} :
    c ∈ dueUnseenRows st seen now ↔
      c ∈ st.rows ∧ c.next_review_at ≤ now ∧ c.id ∉ seen := by
  simp only [dueUnseenRows, List.mem_filter, Bool.and_eq_true,
    isDue, unseen, decide_eq_true_eq]

theorem dataWithFallback_ok_filtered {st : VocabStore} {seen : List Nat}
    {now : Int} (h1 : st.available = true) (h2 : st.hasIsLearnedColumn = true) :
    dataWithFallback st seen now =
      .ok ((sortByDue (dueUnseenNotLearnedRows st seen now)).take 10) := by
  simp [dataWithFallback, runDataQuery, h1, h2]

theorem dataWithFallback_ok_fallback {st : VocabStore} {seen : List Nat}
    {now : Int} (h1 : st.available = true) (h2 : st.hasIsLearnedColumn = false) :
    dataWithFallback st seen now =
      .ok ((sortByDue (dueUnseenRows st seen now)).take 10) := by
  simp [dataWithFallback, runDataQuery, h1, h2]

theorem dataWithFallback_err_down {st : VocabStore} {seen : List Nat}
    {now : Int} (h1 : st.available = false) :
    dataWithFallback st seen now = .error .storeUnavailable := by
  simp [dataWithFallback, runDataQuery, h1]

theorem countWithFallback_filtered {st : VocabStore} {seen : List Nat}
    {now : Int} (h1 : st.available = true) (h2 : st.hasIsLearnedColumn = true) :
    countWithFallback st seen now = eligibleCount st seen now := by
  simp [countWithFallback, runCountQuery, h1, h2, eligibleCount]

theorem countWithFallback_fallback {st : VocabStore} {seen : List Nat}
    {now : Int} (h1 : st.available = true) (h2 : st.hasIsLearnedColumn = false) :
    countWithFallback st seen now = (dueUnseenRows st seen now).length := by
  simp [countWithFallback, runCountQuery, h1, h2]

theorem countWithFallback_down {st : VocabStore} {seen : List Nat}
    {now : Int} (h1 : st.available = false) :
    countWithFallback st seen now = 0 := by
  simp [countWithFallback, runCountQuery, h1]

theorem fetch_ok {st : VocabStore} {s : SessionState} {now : Int}
    {data : List Card} (h : dataWithFallback st s.seen now = .ok data) :
    fetchNextCardStep st s now =
      ⟨{ s with
          cardsRemaining := countWithFallback st s.seen now + s.againQueue.length
          currentCard := (data.filter (fun c => unseen s.seen c)).head? },
        st, none,
        ((data.filter (fun c => unseen s.seen c)).head?).map (·.id)⟩ := by
  simp [fetchNextCardStep, h]

theorem fetch_err {st : VocabStore} {s : SessionState} {now : Int}
    {e : QueryError} (h : dataWithFallback st s.seen now = .error e) :
    fetchNextCardStep st s now =
      ⟨{ s with
          cardsRemaining := countWithFallback st s.seen now + s.againQueue.length },
        st, some e, none⟩ := by
  simp [fetchNextCardStep, h]

theorem fetch_seen_eq (st : VocabStore) (s : SessionState) (now : Int) :
    (fetchNextCardStep st s now).next.seen = s.seen := by
  cases h : dataWithFallback st s.seen now
  · rw [fetch_err h]
  · rw [fetch_ok h]

theorem fetch_store_eq (st : VocabStore) (s : SessionState) (now : Int) :
    (fetchNextCardStep st s now).store = st := by
  cases h : dataWithFallback st s.seen now
  · rw [fetch_err h]
  · rw [fetch_ok h]

theorem fetch_againQueue_eq (st : VocabStore) (s : SessionState) (now : Int) :
    (fetchNextCardStep st s now).next.againQueue = s.againQueue := by
  cases h : dataWithFallback st s.seen now
  · rw [fetch_err h]
  · rw [fetch_ok h]

theorem survivors_head {seen : List Nat} {L : List Card}
    (hL : ∀ c ∈ L, unseen seen c = true) :
    (((sortByDue L).take 10).filter (fun c => unseen seen c)).head? =
      (sortByDue L).head? := by
  have hall : ∀ c ∈ (sortByDue L).take 10, unseen seen c = true := by
    intro c hc
    exact hL c (mem_sortByDue.mp (List.take_subset 10 (sortByDue L) hc))
  rw [List.filter_eq_self.mpr hall, head?_take_ten]

theorem head?_sortByDue_some {L : List Card} {c : Card}
    (h : (sortByDue L).head? = some c) :
    c ∈ L ∧ ∀ d ∈ L, c.next_review_at ≤ d.next_review_at := by
  cases hs : sortByDue L with
  | nil => rw [hs] at h; cases h
  | cons hd t =>
    rw [hs] at h
    have hdc : hd = c := by simpa using h
    subst hdc
    constructor
    · exact mem_sortByDue.mp (by rw [hs]; exact List.mem_cons_self hd t)
    · exact sortByDue_head_min hs

theorem head?_sortByDue_none {L : List Card} :
    (sortByDue L).head? = none ↔ L = [] := by
  rw [List.head?_eq_none_iff, sortByDue_eq_nil]

theorem insertSeen_mem {x y : Nat} {l : List Nat} :
    x ∈ insertSeen y l ↔ x = y ∨ x ∈ l := by
  unfold insertSeen
  split
  · rename_i h
    constructor
    · exact Or.inr
    · rintro (rfl | hx)
      · exact h
      · exact hx
  · exact List.mem_cons

theorem insertSeen_self (y : Nat) (l : List Nat) : y ∈ insertSeen y l :=
  insertSeen_mem.mpr (Or.inl rfl)

theorem insertSeen_mono {x y : Nat} {l : List Nat} (h : x ∈ l) :
    x ∈ insertSeen y l :=
  insertSeen_mem.mpr (Or.inr h)

theorem fetch_emitted_some {st : VocabStore} {s : SessionState} {now : Int}
    {y : Nat} (h : (fetchNextCardStep st s now).emitted = some y) :
    y ∉ s.seen ∧
      ∃ c, (fetchNextCardStep st s now).next.currentCard = some c ∧ c.id = y := by
  cases hd : dataWithFallback st s.seen now with
  | error e => rw [fetch_err hd] at h; cases h
  | ok data =>
    rw [fetch_ok hd] at h
    rw [fetch_ok hd]
    simp only at h
    obtain ⟨c, hc, hy⟩ := Option.map_eq_some'.mp h
    have hcmem := List.mem_of_mem_head? hc
    have hcu := (List.mem_filter.mp hcmem).2
    simp only [unseen, decide_eq_true_eq] at hcu
    refine ⟨by rw [← hy]; exact hcu, c, by simpa using hc, hy⟩

theorem fetch_err_shape {st : VocabStore} {s : SessionState} {now : Int}
    {e : QueryError} (h : (fetchNextCardStep st s now).err = some e) :
    (fetchNextCardStep st s now).next.currentCard = s.currentCard ∧
      (fetchNextCardStep st s now).emitted = none := by
  cases hd : dataWithFallback st s.seen now with
  | error e' => rw [fetch_err hd]; exact ⟨rfl, rfl⟩
  | ok data => rw [fetch_ok hd] at h; cases h

theorem handleRate_none {st : VocabStore} {s : SessionState} {now : Int}
    {r : Rating} (hc : s.currentCard = none) :
    handleRate st s now r = ⟨s, st, none, none⟩ := by
  simp [handleRate, hc]

theorem handleRate_again {st : VocabStore} {s : SessionState} {now : Int}
    {card : Card} (hc : s.currentCard = some card) :
    handleRate st s now .again =
      fetchNextCardStep st { s with seen := insertSeen card.id s.seen } now := by
  simp [handleRate, hc]

theorem handleRate_good {st : VocabStore} {s : SessionState} {now : Int}
    {card : Card} (hc : s.currentCard = some card) :
    handleRate st s now .good =
      fetchNextCardStep st
        { s with seen := insertSeen card.id s.seen
                 againQueue := s.againQueue.filter (fun c => c.id != card.id) }
        now := by
  simp [handleRate, hc]

theorem stepUI_rate (st : VocabStore) (now : Int) (s : SessionState)
    (r : Rating) : stepUI st now s (.rate r) = handleRate st s now r := rfl

theorem stepUI_checkAgain_none {st : VocabStore} {now : Int}
    {s : SessionState} (hc : s.currentCard = none) :
    stepUI st now s .checkAgain = fetchNextCardStep st s now := by
  simp [stepUI, hc]

theorem stepUI_checkAgain_some {st : VocabStore} {now : Int}
    {s : SessionState} {card : Card} (hc : s.currentCard = some card) :
    stepUI st now s .checkAgain = ⟨s, st, none, none⟩ := by
  simp [stepUI, hc]

theorem stepUI_store_eq (st : VocabStore) (now : Int) (s : SessionState)
    (a : UserAction) : (stepUI st now s a).store = st := by
  cases a with
  | rate r =>
    rw [stepUI_rate]
    cases hc : s.currentCard with
    | none => rw [handleRate_none hc]
    | some card =>
      cases r
      · rw [handleRate_again hc, fetch_store_eq]
      · rw [handleRate_good hc, fetch_store_eq]
  | checkAgain =>
    cases hc : s.currentCard with
    | none => rw [stepUI_checkAgain_none hc, fetch_store_eq]
    | some card => rw [stepUI_checkAgain_some hc]

theorem stepUI_seen_mono (st : VocabStore) (now : Int) (s : SessionState)
    (a : UserAction) : ∀ x ∈ s.seen, x ∈ (stepUI st now s a).next.seen := by
  intro x hx
  cases a with
  | rate r =>
    rw [stepUI_rate]
    cases hc : s.currentCard with
    | none => rw [handleRate_none hc]; exact hx
    | some card =>
      cases r
      · rw [handleRate_again hc, fetch_seen_eq]
        exact insertSeen_mono hx
      · rw [handleRate_good hc, fetch_seen_eq]
        exact insertSeen_mono hx
  | checkAgain =>
    cases hc : s.currentCard with
    | none => rw [stepUI_checkAgain_none hc, fetch_seen_eq]; exact hx
    | some card => rw [stepUI_checkAgain_some hc]; exact hx

theorem stepUI_emitted_some {st : VocabStore} {now : Int} {s : SessionState}
    {a : UserAction} {y : Nat} (h : (stepUI st now s a).emitted = some y) :
    y ∉ (stepUI st now s a).next.seen ∧
      (∃ c, (stepUI st now s a).next.currentCard = some c ∧ c.id = y) ∧
      (∀ c, s.currentCard = some c → c.id ∈ (stepUI st now s a).next.seen) := by
  cases a with
  | rate r =>
    rw [stepUI_rate] at h ⊢
    cases hc : s.currentCard with
    | none => rw [handleRate_none hc] at h; cases h
    | some card =>
      cases r
      · rw [handleRate_again hc] at h ⊢
        obtain ⟨hy, c0, hcc, hcy⟩ := fetch_emitted_some h
        refine ⟨by rw [fetch_seen_eq]; exact hy, ⟨c0, hcc, hcy⟩, ?_⟩
        intro c hcsome
        injection hcsome with hcc'
        subst hcc'
        rw [fetch_seen_eq]
        exact insertSeen_self _ _
      · rw [handleRate_good hc] at h ⊢
        obtain ⟨hy, c0, hcc, hcy⟩ := fetch_emitted_some h
        refine ⟨by rw [fetch_seen_eq]; exact hy, ⟨c0, hcc, hcy⟩, ?_⟩
        intro c hcsome
        injection hcsome with hcc'
        subst hcc'
        rw [fetch_seen_eq]
        exact insertSeen_self _ _
  | checkAgain =>
    cases hc : s.currentCard with
    | none =>
      rw [stepUI_checkAgain_none hc] at h ⊢
      obtain ⟨hy, c0, hcc, hcy⟩ := fetch_emitted_some h
      refine ⟨by rw [fetch_seen_eq]; exact hy, ⟨c0, hcc, hcy⟩, ?_⟩
      intro c hcsome
      exact Option.noConfusion hcsome
    | some card => rw [stepUI_checkAgain_some hc] at h; cases h

theorem stepUI_emitted_none {st : VocabStore} {now : Int} {s : SessionState}
    {a : UserAction} (h : (stepUI st now s a).emitted = none) :
    ∀ c, s.currentCard = some c →
      c.id ∈ (stepUI st now s a).next.seen ∨
        (stepUI st now s a).next.currentCard = some c := by
  intro c hc
  cases a with
  | rate r =>
    rw [stepUI_rate]
    cases r
    · rw [handleRate_again hc, fetch_seen_eq]
      exact Or.inl (insertSeen_self c.id s.seen)
    · rw [handleRate_good hc, fetch_seen_eq]
      exact Or.inl (insertSeen_self c.id s.seen)
  | checkAgain =>
    rw [stepUI_checkAgain_some hc]
    exact Or.inr hc

theorem sessionTrace_cons_some {st : VocabStore} {now : Int} {a : UserAction}
    {acts : List UserAction} {s : SessionState} {y : Nat}
    (h : (stepUI st now s a).emitted = some y) :
    sessionTrace st now (a :: acts) s =
      y :: sessionTrace st now acts (stepUI st now s a).next := by
  simp [sessionTrace, h]

theorem sessionTrace_cons_none {st : VocabStore} {now : Int} {a : UserAction}
    {acts : List UserAction} {s : SessionState}
    (h : (stepUI st now s a).emitted = none) :
    sessionTrace st now (a :: acts) s =
      sessionTrace st now acts (stepUI st now s a).next := by
  simp [sessionTrace, h]

theorem sessionTrace_spec (st : VocabStore) (now : Int) :
    ∀ (acts : List UserAction) (s : SessionState),
      (∀ x ∈ sessionTrace st now acts s,
        x ∉ s.seen ∧ ∀ c, s.currentCard = some c → x ≠ c.id) ∧
      (sessionTrace st now acts s).Nodup := by
  intro acts
  induction acts with
  | nil =>
    intro s
    constructor
    · intro x hx
      simp [sessionTrace] at hx
    · simp [sessionTrace]
  | cons a acts ih =>
    intro s
    cases he : (stepUI st now s a).emitted with
    | none =>
      rw [sessionTrace_cons_none he]
      obtain ⟨ih1, ih2⟩ := ih (stepUI st now s a).next
      refine ⟨fun x hx => ?_, ih2⟩
      obtain ⟨hx1, hx2⟩ := ih1 x hx
      refine ⟨fun hxs => hx1 (stepUI_seen_mono st now s a x hxs), ?_⟩
      intro c hc
      rcases stepUI_emitted_none he c hc with hin | hcur
      · intro hxc; exact hx1 (hxc ▸ hin)
      · exact hx2 c hcur
    | some y =>
      rw [sessionTrace_cons_some he]
      obtain ⟨ih1, ih2⟩ := ih (stepUI st now s a).next
      obtain ⟨hy1, hyex, hy3⟩ := stepUI_emitted_some he
      constructor
      · intro x hx
        rcases List.mem_cons.mp hx with rfl | hx
        · refine ⟨fun hxs => hy1 (stepUI_seen_mono st now s a x hxs), ?_⟩
          intro c hc hyx
          exact hy1 (hyx ▸ hy3 c hc)
        · obtain ⟨hx1, hx2⟩ := ih1 x hx
          refine ⟨fun hxs => hx1 (stepUI_seen_mono st now s a x hxs), ?_⟩
          intro c hc hxc
          exact hx1 (hxc ▸ hy3 c hc)
      · refine List.nodup_cons.mpr ⟨?_, ih2⟩
        intro hy
        obtain ⟨hx1, hx2⟩ := ih1 y hy
        obtain ⟨c0, hc0, hc0y⟩ := hyex
        exact hx2 c0 hc0 hc0y.symm

theorem fetch_cardsRemaining (st : VocabStore) (s : SessionState) (now : Int) :
    (fetchNextCardStep st s now).next.cardsRemaining =
      countWithFallback st s.seen now + s.againQueue.length := by
  cases h : dataWithFallback st s.seen now
  · rw [fetch_err h]
  · rw [fetch_ok h]

theorem dueUnseenNotLearnedRows_eq_nil {st : VocabStore} {seen : List Nat}
    {now : Int} :
    dueUnseenNotLearnedRows st seen now = [] ↔
      ∀ d ∈ st.rows, d.next_review_at ≤ now →
        d.is_learned.getD false = false → d.id ∈ seen := by
  rw [dueUnseenNotLearnedRows, List.filter_eq_nil_iff]
  constructor
  · intro h d hd hdue hnl
    by_contra hns
    exact h d hd (by simp [isDue, unseen, notLearned, hdue, hnl, hns])
  · intro h d hd hp
    simp only [isDue, unseen, notLearned, Bool.and_eq_true, decide_eq_true_eq,
      Bool.not_eq_true'] at hp
    exact hp.1.2 (h d hd hp.1.1 hp.2)

theorem dueUnseenRows_eq_nil {st : VocabStore} {seen : List Nat} {now : Int} :
    dueUnseenRows st seen now = [] ↔
      ∀ d ∈ st.rows, d.next_review_at ≤ now → d.id ∈ seen := by
  rw [dueUnseenRows, List.filter_eq_nil_iff]
  constructor
  · intro h d hd hdue
    by_contra hns
    exact h d hd (by simp [isDue, unseen, hdue, hns])
  · intro h d hd hp
    simp only [isDue, unseen, Bool.and_eq_true, decide_eq_true_eq] at hp
    exact hp.2 (h d hd hp.1)

theorem fetch_inv {st : VocabStore} {s : SessionState} {now : Int}
    (h1 : st.available = true) (h2 : st.hasIsLearnedColumn = true)
    (haq : s.againQueue = []) :
    (fetchNextCardStep st s now).next.againQueue = [] ∧
      (fetchNextCardStep st s now).next.cardsRemaining =
        eligibleCount st (fetchNextCardStep st s now).next.seen now := by
  constructor
  · rw [fetch_againQueue_eq]; exact haq
  · rw [fetch_cardsRemaining, fetch_seen_eq, countWithFallback_filtered h1 h2,
      haq]
    rfl

theorem stepUI_inv {st : VocabStore} {s : SessionState} {now : Int}
    (h1 : st.available = true) (h2 : st.hasIsLearnedColumn = true)
    (haq : s.againQueue = [])
    (hrem : s.cardsRemaining = eligibleCount st s.seen now) (a : UserAction) :
    (stepUI st now s a).next.againQueue = [] ∧
      (stepUI st now s a).next.cardsRemaining =
        eligibleCount st (stepUI st now s a).next.seen now := by
  cases a with
  | rate r =>
    rw [stepUI_rate]
    cases hc : s.currentCard with
    | none => rw [handleRate_none hc]; exact ⟨haq, hrem⟩
    | some card =>
      cases r
      · rw [handleRate_again hc]
        exact fetch_inv h1 h2 haq
      · rw [handleRate_good hc]
        refine fetch_inv h1 h2 ?_
        show s.againQueue.filter (fun c => c.id != card.id) = []
        rw [haq]
        rfl
  | checkAgain =>
    cases hc : s.currentCard with
    | none =>
      rw [stepUI_checkAgain_none hc]
      exact fetch_inv h1 h2 haq
    | some card => rw [stepUI_checkAgain_some hc]; exact ⟨haq, hrem⟩

theorem runActs_inv {st : VocabStore} {now : Int}
    (h1 : st.available = true) (h2 : st.hasIsLearnedColumn = true) :
    ∀ (acts : List UserAction) (s : SessionState), s.againQueue = [] →
      s.cardsRemaining = eligibleCount st s.seen now →
      (runActs st now acts s).againQueue = [] ∧
        (runActs st now acts s).cardsRemaining =
          eligibleCount st (runActs st now acts s).seen now := by
  intro acts
  induction acts with
  | nil => intro s h3 h4; exact ⟨h3, h4⟩
  | cons a acts ih =>
    intro s h3 h4
    have hstep := stepUI_inv h1 h2 h3 h4 a
    exact ih (stepUI st now s a).next hstep.1 hstep.2

/-- C1: within one review session (one lifetime of the seen set, with no
external card additions), no card id is ever returned twice by the
next-card selection: every rated card's id enters the seen set before the
next fetch, every selection query excludes all seen ids, and surviving
results are filtered against the seen set client-side, so the trace of ids
returned by the selection over any run of user actions has no
duplicates. -/
theorem session_selection_never_repeats (st : VocabStore) (now : Int)
    (acts : List UserAction) (s : SessionState) :
    (sessionTrace st now acts s).Nodup :=
  (sessionTrace_spec st now acts s).2

/-- C2: under Policy A, rating a presented card `again` is exactly a fetch
after marking the card's id seen: it performs no store write, leaves every
row's `interval_days`, `ease_factor` and `next_review_at` unchanged, leaves
the again-queue unchanged, and its only effect on the session's sets is
that the card's id is now in the seen set. -/
theorem rate_again_no_write_only_seen (st : VocabStore) (s : SessionState)
    (now : Int) (c : Card) (h : s.currentCard = some c) :
    handleRate st s now .again =
      fetchNextCardStep st { s with seen := insertSeen c.id s.seen } now ∧
    (handleRate st s now .again).store = st ∧
    (∀ w ∈ st.rows, ∃ w2 ∈ (handleRate st s now .again).store.rows,
      w2.id = w.id ∧ w2.interval_days = w.interval_days ∧
        w2.ease_factor = w.ease_factor ∧
        w2.next_review_at = w.next_review_at) ∧
    (∀ x, x ∈ (handleRate st s now .again).next.seen ↔
      x = c.id ∨ x ∈ s.seen) ∧
    (handleRate st s now .again).next.againQueue = s.againQueue := by
  rw [handleRate_again h]
  refine ⟨rfl, fetch_store_eq _ _ _, ?_, ?_, ?_⟩
  · intro w hw
    refine ⟨w, ?_, rfl, rfl, rfl, rfl⟩
    rw [fetch_store_eq]
    exact hw
  · intro x
    rw [fetch_seen_eq]
    exact insertSeen_mem
  · rw [fetch_againQueue_eq]

/-- Witness for C2 at a concrete store and presented card. -/
theorem rate_again_no_write_only_seen_witness :
    demoPresenting.currentCard = some demoCard2 ∧
    (handleRate demoStore demoPresenting demoNow .again).store = demoStore ∧
    demoCard2.id ∈
      (handleRate demoStore demoPresenting demoNow .again).next.seen :=
  ⟨rfl,
    (rate_again_no_write_only_seen demoStore demoPresenting demoNow demoCard2
      rfl).2.1,
    ((rate_again_no_write_only_seen demoStore demoPresenting demoNow demoCard2
      rfl).2.2.2.1 demoCard2.id).mpr (Or.inl rfl)⟩

/-- C4: under Policy B (modelled from the spec; only Policy A's flow exists
under `src/`), `again` yields interval 1.0 and ease max(1.3, ease - 0.2);
`good` yields interval * ease with ease unchanged; `easy` yields
interval * ease * 1.5 and ease min(2.8, ease + 0.1); and in all three
cases the next review time is now plus the new interval rounded up to
whole days. -/
theorem policyB_transition_spec (s : SchedState) (now : Int) :
    ((scheduleB .again s now).intervalDays = 1 ∧
      (scheduleB .again s now).easeFactor =
        max (13/10 : ℚ) (s.easeFactor - 2/10) ∧
      (scheduleB .again s now).nextReviewAt =
        now + dayMs * ⌈(scheduleB .again s now).intervalDays⌉) ∧
    ((scheduleB .good s now).intervalDays =
        s.intervalDays * s.easeFactor ∧
      (scheduleB .good s now).easeFactor = s.easeFactor ∧
      (scheduleB .good s now).nextReviewAt =
        now + dayMs * ⌈(scheduleB .good s now).intervalDays⌉) ∧
    ((scheduleB .easy s now).intervalDays =
        s.intervalDays * s.easeFactor * (3/2) ∧
      (scheduleB .easy s now).easeFactor =
        min (14/5 : ℚ) (s.easeFactor + 1/10) ∧
      (scheduleB .easy s now).nextReviewAt =
        now + dayMs * ⌈(scheduleB .easy s now).intervalDays⌉) := by
  refine ⟨⟨rfl, rfl, rfl⟩, ⟨rfl, rfl, rfl⟩, ⟨rfl, rfl, rfl⟩⟩

/-- C9: the "move to end" operation updates only the matched word's
`created_at` ordering key: the id/`next_review_at`/`interval_days`/
`ease_factor` projection of the whole list is unchanged, the matched word
reappears with `created_at = now` and all other fields intact, and
unmatched words are untouched. -/
theorem move_to_end_only_created_at (rows : List Card) (targetId : Nat)
    (now : Int) :
    (handleReviewLater rows targetId now).map schedProj =
      rows.map schedProj ∧
    (∀ w ∈ rows, w.id = targetId →
      { w with created_at := now } ∈ handleReviewLater rows targetId now) ∧
    (∀ w ∈ rows, w.id ≠ targetId →
      w ∈ handleReviewLater rows targetId now) := by
  refine ⟨?_, ?_, ?_⟩
  · rw [handleReviewLater, List.map_map]
    apply List.map_congr_left
    intro w _
    by_cases hw : w.id = targetId <;> simp [schedProj, hw]
  · intro w hw hid
    exact List.mem_map.mpr ⟨w, hw, by simp [hid]⟩
  · intro w hw hid
    exact List.mem_map.mpr ⟨w, hw, by simp [hid]⟩

/-- Witness for C9 at a concrete deck. -/
theorem move_to_end_only_created_at_witness :
    (handleReviewLater [demoCard1, demoCard2] 2 77).map schedProj =
      [demoCard1, demoCard2].map schedProj ∧
    { demoCard2 with created_at := 77 } ∈
      handleReviewLater [demoCard1, demoCard2] 2 77 :=
  ⟨(move_to_end_only_created_at [demoCard1, demoCard2] 2 77).1,
    (move_to_end_only_created_at [demoCard1, demoCard2] 2 77).2.1 demoCard2
      (List.mem_cons_of_mem _ (List.mem_cons_self _ _)) rfl⟩

/-- C10: submitting a rating when no card is presented is a complete no-op:
the page state (seen set, again-queue, remaining count, presented card) is
unchanged, the store is untouched, no error is surfaced and no card id is
returned. -/
theorem rate_without_card_noop (st : VocabStore) (s : SessionState)
    (now : Int) (r : Rating) (h : s.currentCard = none) :
    handleRate st s now r = ⟨s, st, none, none⟩ ∧
    (handleRate st s now r).next.seen = s.seen ∧
    (handleRate st s now r).next.againQueue = s.againQueue ∧
    (handleRate st s now r).store = st := by
  rw [handleRate_none h]
  exact ⟨rfl, rfl, rfl, rfl⟩

/-- Witness for C10 at a concrete idle state. -/
theorem rate_without_card_noop_witness :
    initState.currentCard = none ∧
    handleRate demoStore initState demoNow .again =
      ⟨initState, demoStore, none, none⟩ :=
  ⟨rfl, (rate_without_card_noop demoStore initState demoNow .again rfl).1⟩

theorem selection_head_some {st : VocabStore} {seen : List Nat} {now : Int}
    {c : Card}
    (h : (sortByDue (dueUnseenNotLearnedRows st seen now)).head? = some c) :
    c ∈ st.rows ∧ c.next_review_at ≤ now ∧ c.is_learned.getD false = false ∧
      c.id ∉ seen ∧
      ∀ d ∈ st.rows, d.next_review_at ≤ now →
        d.is_learned.getD false = false → d.id ∉ seen →
          c.next_review_at ≤ d.next_review_at := by
  obtain ⟨hmem, hmin⟩ := head?_sortByDue_some h
  obtain ⟨hr, hdue, hnl, hns⟩ := mem_dueUnseenNotLearnedRows.mp hmem
  refine ⟨hr, hdue, hnl, hns, ?_⟩
  intro d hd hddue hdnl hdns
  exact hmin d (mem_dueUnseenNotLearnedRows.mpr ⟨hd, hddue, hdnl, hdns⟩)

theorem selection_head_none {st : VocabStore} {seen : List Nat} {now : Int} :
    (sortByDue (dueUnseenNotLearnedRows st seen now)).head? = none ↔
      ∀ d ∈ st.rows, d.next_review_at ≤ now →
        d.is_learned.getD false = false → d.id ∈ seen := by
  rw [List.head?_eq_none_iff, sortByDue_eq_nil, dueUnseenNotLearnedRows_eq_nil]

theorem selection_head_none_unfiltered {st : VocabStore} {seen : List Nat}
    {now : Int} :
    (sortByDue (dueUnseenRows st seen now)).head? = none ↔
      ∀ d ∈ st.rows, d.next_review_at ≤ now → d.id ∈ seen := by
  rw [List.head?_eq_none_iff, sortByDue_eq_nil, dueUnseenRows_eq_nil]

/-- C3: the next-card selection considers exactly the rows with
`next_review_at <= now`, `is_learned` false (null treated as false) and id
not in the seen set; the batch is the first 10 of those rows ordered
ascending by `next_review_at`; the presented card is the first batch entry
surviving the client-side seen filter; any returned card is eligible and
minimal-due among eligible rows; and the selection reports queue-empty
(no presented card) exactly when no eligible row exists. -/
theorem selection_considers_due_unlearned_unseen (st : VocabStore)
    (s : SessionState) (now : Int) (h1 : st.available = true)
    (h2 : st.hasIsLearnedColumn = true) :
    (fetchNextCardStep st s now).err = none ∧
    dataWithFallback st s.seen now =
      .ok ((sortByDue (dueUnseenNotLearnedRows st s.seen now)).take 10) ∧
    (fetchNextCardStep st s now).next.currentCard =
      (((sortByDue (dueUnseenNotLearnedRows st s.seen now)).take 10).filter
        (fun c => unseen s.seen c)).head? ∧
    (∀ c, (fetchNextCardStep st s now).next.currentCard = some c →
      c ∈ st.rows ∧ c.next_review_at ≤ now ∧
        c.is_learned.getD false = false ∧ c.id ∉ s.seen ∧
        ∀ d ∈ st.rows, d.next_review_at ≤ now →
          d.is_learned.getD false = false → d.id ∉ s.seen →
            c.next_review_at ≤ d.next_review_at) ∧
    ((fetchNextCardStep st s now).next.currentCard = none ↔
      ∀ d ∈ st.rows, d.next_review_at ≤ now →
        d.is_learned.getD false = false → d.id ∈ s.seen) := by
  have hd : dataWithFallback st s.seen now =
      .ok ((sortByDue (dueUnseenNotLearnedRows st s.seen now)).take 10) :=
    dataWithFallback_ok_filtered h1 h2
  have hL : ∀ c ∈ dueUnseenNotLearnedRows st s.seen now,
      unseen s.seen c = true := by
    intro c hc
    have hm := mem_dueUnseenNotLearnedRows.mp hc
    simp [unseen, hm.2.2.2]
  have hsur := survivors_head hL
  rw [fetch_ok hd]
  refine ⟨rfl, hd, rfl, ?_, ?_⟩
  · intro c hc
    have hc2 : (((sortByDue (dueUnseenNotLearnedRows st s.seen now)).take
        10).filter (fun c => unseen s.seen c)).head? = some c := hc
    rw [hsur] at hc2
    exact selection_head_some hc2
  · constructor
    · intro hnone
      have hn2 : (((sortByDue (dueUnseenNotLearnedRows st s.seen now)).take
          10).filter (fun c => unseen s.seen c)).head? = none := hnone
      rw [hsur] at hn2
      exact selection_head_none.mp hn2
    · intro hall
      show (((sortByDue (dueUnseenNotLearnedRows st s.seen now)).take
        10).filter (fun c => unseen s.seen c)).head? = none
      rw [hsur]
      exact selection_head_none.mpr hall

/-- Witness for C3: at the concrete store the selection returns the
oldest-due eligible card (id 2, due at 3), skipping the learned card. -/
theorem selection_considers_due_unlearned_unseen_witness :
    demoStore.available = true ∧ demoStore.hasIsLearnedColumn = true ∧
    (fetchNextCardStep demoStore initState demoNow).err = none ∧
    (fetchNextCardStep demoStore initState demoNow).next.currentCard =
      some demoCard2 :=
  ⟨rfl, rfl,
    (selection_considers_due_unlearned_unseen demoStore initState demoNow rfl
      rfl).1, rfl⟩

/-- C5: under Policy A, rating a presented card `done` (the `good` rating)
performs no store write, marks the card's id seen, removes it from the
again-queue, recomputes the remaining estimate over the new seen set (which
now excludes the card from the due-and-unseen rows), and the card can never
be returned by the selection again in this session. -/
theorem rate_done_dequeues_without_write (st : VocabStore) (s : SessionState)
    (now : Int) (c : Card) (h : s.currentCard = some c) :
    (handleRate st s now .good).store = st ∧
    c.id ∈ (handleRate st s now .good).next.seen ∧
    (∀ d ∈ (handleRate st s now .good).next.againQueue, d.id ≠ c.id) ∧
    (handleRate st s now .good).next.cardsRemaining =
      countWithFallback st (handleRate st s now .good).next.seen now +
        (handleRate st s now .good).next.againQueue.length ∧
    (∀ w ∈ dueUnseenNotLearnedRows st
        (handleRate st s now .good).next.seen now, w.id ≠ c.id) ∧
    (∀ acts, c.id ∉ sessionTrace st now acts
      (handleRate st s now .good).next) := by
  rw [handleRate_good h]
  refine ⟨fetch_store_eq _ _ _, ?_, ?_, ?_, ?_, ?_⟩
  · rw [fetch_seen_eq]
    exact insertSeen_self _ _
  · intro d hd
    rw [fetch_againQueue_eq] at hd
    have hne := (List.mem_filter.mp hd).2
    simpa using hne
  · rw [fetch_cardsRemaining, fetch_seen_eq, fetch_againQueue_eq]
  · intro w hw
    rw [fetch_seen_eq] at hw
    have hm := mem_dueUnseenNotLearnedRows.mp hw
    intro hwc
    exact hm.2.2.2 (hwc ▸ insertSeen_self c.id s.seen)
  · intro acts hmem
    have hx := ((sessionTrace_spec st now acts _).1 c.id hmem).1
    rw [fetch_seen_eq] at hx
    exact hx (insertSeen_self _ _)

/-- Witness for C5 at a concrete store and presented card. -/
theorem rate_done_dequeues_without_write_witness :
    demoPresenting.currentCard = some demoCard2 ∧
    (handleRate demoStore demoPresenting demoNow .good).store = demoStore ∧
    demoCard2.id ∈
      (handleRate demoStore demoPresenting demoNow .good).next.seen :=
  ⟨rfl,
    (rate_done_dequeues_without_write demoStore demoPresenting demoNow
      demoCard2 rfl).1,
    (rate_done_dequeues_without_write demoStore demoPresenting demoNow
      demoCard2 rfl).2.1⟩

/-- C6: along any run of the page that starts with the mount fetch, the
again-queue stays empty (it starts empty and is only ever filtered), so the
remaining-count estimate displayed after each selection equals the number
of due, not-learned, not-yet-seen rows. -/
theorem remaining_count_estimate (st : VocabStore) (now : Int)
    (acts : List UserAction) (h1 : st.available = true)
    (h2 : st.hasIsLearnedColumn = true) :
    (runActs st now (.checkAgain :: acts) initState).againQueue = [] ∧
    (runActs st now (.checkAgain :: acts) initState).cardsRemaining =
      eligibleCount st (runActs st now (.checkAgain :: acts) initState).seen
        now := by
  have h0 : stepUI st now initState .checkAgain =
      fetchNextCardStep st initState now := stepUI_checkAgain_none rfl
  have hrun : runActs st now (.checkAgain :: acts) initState =
      runActs st now acts (fetchNextCardStep st initState now).next := by
    show runActs st now acts (stepUI st now initState .checkAgain).next = _
    rw [h0]
  rw [hrun]
  have hfi : (fetchNextCardStep st initState now).next.againQueue = [] ∧
      (fetchNextCardStep st initState now).next.cardsRemaining =
        eligibleCount st (fetchNextCardStep st initState now).next.seen now :=
    fetch_inv h1 h2 rfl
  exact runActs_inv h1 h2 acts _ hfi.1 hfi.2

/-- Witness for C6: after the mount fetch on the concrete store the
displayed count equals the two eligible rows. -/
theorem remaining_count_estimate_witness :
    demoStore.available = true ∧ demoStore.hasIsLearnedColumn = true ∧
    (runActs demoStore demoNow [UserAction.checkAgain]
      initState).cardsRemaining =
      eligibleCount demoStore
        (runActs demoStore demoNow [UserAction.checkAgain] initState).seen
        demoNow ∧
    (runActs demoStore demoNow [UserAction.checkAgain]
      initState).cardsRemaining = 2 :=
  ⟨rfl, rfl, (remaining_count_estimate demoStore demoNow [] rfl rfl).2, rfl⟩

/-- C7: when the schema lacks the `is_learned` column, the filtered count
and data queries error and both fall back to the same due-and-unseen query
without the filter; the fetch then surfaces no error, presents the first
of the due unseen rows ordered by `next_review_at`, and reports queue-empty
exactly when every due row is already seen — so such a store still serves
due cards. -/
theorem is_learned_fallback (st : VocabStore) (s : SessionState) (now : Int)
    (h1 : st.available = true) (h2 : st.hasIsLearnedColumn = false) :
    runDataQuery st s.seen now true = .error .missingColumn ∧
    runCountQuery st s.seen now true = .error .missingColumn ∧
    dataWithFallback st s.seen now =
      .ok ((sortByDue (dueUnseenRows st s.seen now)).take 10) ∧
    countWithFallback st s.seen now = (dueUnseenRows st s.seen now).length ∧
    (fetchNextCardStep st s now).err = none ∧
    (fetchNextCardStep st s now).next.currentCard =
      (sortByDue (dueUnseenRows st s.seen now)).head? ∧
    ((fetchNextCardStep st s now).next.currentCard = none ↔
      ∀ d ∈ st.rows, d.next_review_at ≤ now → d.id ∈ s.seen) := by
  have hq : runDataQuery st s.seen now true = .error .missingColumn := by
    simp [runDataQuery, h1, h2]
  have hqc : runCountQuery st s.seen now true = .error .missingColumn := by
    simp [runCountQuery, h1, h2]
  have hd : dataWithFallback st s.seen now =
      .ok ((sortByDue (dueUnseenRows st s.seen now)).take 10) :=
    dataWithFallback_ok_fallback h1 h2
  have hL : ∀ c ∈ dueUnseenRows st s.seen now, unseen s.seen c = true := by
    intro c hc
    have hm := mem_dueUnseenRows.mp hc
    simp [unseen, hm.2.2]
  have hsur := survivors_head hL
  rw [fetch_ok hd]
  refine ⟨hq, hqc, hd, countWithFallback_fallback h1 h2, rfl, hsur, ?_⟩
  constructor
  · intro hnone
    have hn2 : (((sortByDue (dueUnseenRows st s.seen now)).take 10).filter
        (fun c => unseen s.seen c)).head? = none := hnone
    rw [hsur] at hn2
    exact selection_head_none_unfiltered.mp hn2
  · intro hall
    show (((sortByDue (dueUnseenRows st s.seen now)).take 10).filter
      (fun c => unseen s.seen c)).head? = none
    rw [hsur]
    exact selection_head_none_unfiltered.mpr hall

/-- Witness for C7: on the column-less store the fallback serves the
oldest-due row (id 3), which the filtered path would have excluded. -/
theorem is_learned_fallback_witness :
    demoStoreNoCol.available = true ∧
    demoStoreNoCol.hasIsLearnedColumn = false ∧
    (fetchNextCardStep demoStoreNoCol initState demoNow).err = none ∧
    (fetchNextCardStep demoStoreNoCol initState demoNow).next.currentCard =
      some demoCard3 :=
  ⟨rfl, rfl,
    (is_learned_fallback demoStoreNoCol initState demoNow rfl
      rfl).2.2.2.2.1, rfl⟩

/-- C8: a store-read failure during selection is surfaced as a
retryable error while the seen set and the presented card are unchanged
(the session does not advance past the failed step); moreover the
selection never mutates the seen set for any store, and a rating submitted
with no presented card leaves the seen set unchanged, so the seen set
grows only when a rating is submitted for a presented card. -/
theorem store_failure_no_partial_state (st : VocabStore) (s : SessionState)
    (now : Int) (h1 : st.available = false) :
    (fetchNextCardStep st s now).err = some .storeUnavailable ∧
    (fetchNextCardStep st s now).next.seen = s.seen ∧
    (fetchNextCardStep st s now).next.currentCard = s.currentCard ∧
    (fetchNextCardStep st s now).store = st ∧
    (∀ st2 s2 now2, (fetchNextCardStep st2 s2 now2).next.seen = s2.seen) ∧
    (∀ st2 s2 now2 r, s2.currentCard = none →
      (handleRate st2 s2 now2 r).next.seen = s2.seen) := by
  have hd : dataWithFallback st s.seen now = .error .storeUnavailable :=
    dataWithFallback_err_down h1
  rw [fetch_err hd]
  refine ⟨rfl, rfl, rfl, rfl, fetch_seen_eq, ?_⟩
  intro st2 s2 now2 r hc
  rw [handleRate_none hc]

/-- Witness for C8 at the concrete unreachable store. -/
theorem store_failure_no_partial_state_witness :
    demoStoreDown.available = false ∧
    (fetchNextCardStep demoStoreDown demoPresenting demoNow).err =
      some QueryError.storeUnavailable ∧
    (fetchNextCardStep demoStoreDown demoPresenting demoNow).next.currentCard
      = demoPresenting.currentCard :=
  ⟨rfl,
    (store_failure_no_partial_state demoStoreDown demoPresenting demoNow
      rfl).1,
    (store_failure_no_partial_state demoStoreDown demoPresenting demoNow
      rfl).2.2.1⟩
